import Mathlib

/-!
Verification of the TODO application (Django app `todos`): data model,
form validation and the five request handlers from `views.py`, together
with the record store they drive.  The model layer (`models.py`) is not
part of the provided sources; its behaviour is modelled from the
specification (§3, §4.1) where noted.  Timestamps are modelled by a
logical clock carried in the store: every save assigns the current clock
value to `updated_at` and then advances the clock, which captures the
strict monotonicity of wall-clock `auto_now` timestamps.
-/

/-- Modelled from the spec: a calendar date as accepted by the form's
date field (`YYYY-MM-DD`); `models.py` (which declares `due_date` as a
date column) is absent from the sources. -/
structure Date where
  year : Nat
  month : Nat
  day : Nat
deriving Repr, DecidableEq

/-- Whitespace-trimming on character lists (the validator strips
leading and trailing whitespace from text input). -/
def trimChars (cs : List Char) : List Char :=
  ((cs.dropWhile Char.isWhitespace).reverse.dropWhile Char.isWhitespace).reverse

/-- Whitespace-trimming on strings. -/
def strTrim (s : String) : String :=
  ⟨trimChars s.data⟩

/-- The numeric value of a decimal digit character. -/
def digitVal (c : Char) : Option Nat :=
  if c.isDigit then some (c.toNat - 48) else none

/-- Accumulating decimal parse of a character list. -/
def natOfDigitsAux : Nat → List Char → Option Nat
  | acc, [] => some acc
  | acc, c :: cs =>
    match digitVal c with
    | some d => natOfDigitsAux (acc * 10 + d) cs
    | none => none

/-- Decimal parse of a non-empty character list. -/
def toNatChars : List Char → Option Nat
  | [] => none
  | cs => natOfDigitsAux 0 cs

/-- Split a character list on the `-` separator. -/
def splitDash : List Char → List (List Char)
  | [] => [[]]
  | c :: cs =>
    let r := splitDash cs
    if c == '-' then [] :: r
    else
      match r with
      | [] => [[c]]
      | g :: gs => (c :: g) :: gs

/-- Modelled from the spec: parsing of the accepted date format
`YYYY-MM-DD`; a value that does not parse yields `none` (the validator
turns that into an `invalid_date` error, §4.2). -/
def parseDate (s : String) : Option Date :=
  match splitDash s.data with
  | [y, m, d] =>
    match toNatChars y, toNatChars m, toNatChars d with
    | some yn, some mn, some dn =>
      if 1 ≤ mn ∧ mn ≤ 12 ∧ 1 ≤ dn ∧ dn ≤ 31 then some ⟨yn, mn, dn⟩ else none
    | _, _, _ => none
  | _ => none

/-- Modelled from the spec: the `Todo` entity of §3 (`models.py` is
absent from the sources).  `created_at` and `updated_at` are logical
clock values. -/
structure Todo where
  id : Nat
  title : String
  description : String
  due_date : Option Date
  is_resolved : Bool
  created_at : Nat
  updated_at : Nat
deriving Repr, DecidableEq

/-- A field map passed to the store's `create`/`update` operations:
`none` means the field was omitted (§4.1: omitted fields get defaults on
create and are left unchanged on update).  For `due_date` the outer
option is presence in the map, the inner option is the nullable value. -/
structure Fields where
  title : Option String := none
  description : Option String := none
  due_date : Option (Option Date) := none
  is_resolved : Option Bool := none
deriving Repr, DecidableEq

/-- Raw request data as submitted to `TodoForm` (`forms.py`): every
field is an optional string; an unchecked checkbox submits no value at
all for `is_resolved`. -/
structure RawFields where
  title : Option String := none
  description : Option String := none
  due_date : Option String := none
  is_resolved : Option String := none
deriving Repr, DecidableEq

/-- The normalized field set produced by a successful validation
(§4.2). -/
structure CleanedFields where
  title : String
  description : String
  due_date : Option Date
  is_resolved : Bool
deriving Repr, DecidableEq

/-- A cleaned form supplies every one of the four form fields when it is
saved (`forms.py` lists `fields = [title, description, due_date,
is_resolved]`, and `ModelForm.save` writes all of them). -/
def CleanedFields.toFields (c : CleanedFields) : Fields :=
  { title := some c.title, description := some c.description,
    due_date := some c.due_date, is_resolved := some c.is_resolved }

/-- Modelled from the spec: title validation (§4.2) — required, error
`required` if missing or empty after trim.  The concrete rules live in
the model declaration (`models.py`), absent from the sources; the field
list itself is from `forms.py`. -/
def cleanTitle (r : RawFields) : Except (String × String) String :=
  let t := strTrim (r.title.getD (""))
  if t = "" then .error (("title", "required")) else .ok t

/-- Modelled from the spec: due-date validation (§4.2) — optional, must
parse as a calendar date in the accepted format, else error
`invalid_date`; an empty submission means no date. -/
def cleanDueDate (r : RawFields) : Except (String × String) (Option Date) :=
  match r.due_date with
  | none => .ok none
  | some v =>
    if strTrim v = "" then .ok none
    else
      match parseDate v with
      | some d => .ok (some d)
      | none => .error (("due_date", "invalid_date"))

/-- Checkbox decoding (`forms.py` renders `is_resolved` with a
`CheckboxInput`): an absent value is false; a submitted value is true
unless it spells a false-y literal. -/
def checkboxToBool : Option String → Bool
  | none => false
  | some v => !(v == "false" || v == "0" || v == "")

/-- The error contributed by one field's cleaning step. -/
def errList {α : Type} : Except (String × String) α → List (String × String)
  | .ok _ => []
  | .error e => [e]

/-- The validator (§4.2): a pure function from raw data to either a
normalized field set or a structured list of per-field `(field, code)`
errors. -/
def clean (r : RawFields) : Except (List (String × String)) CleanedFields :=
  match cleanTitle r, cleanDueDate r with
  | .ok t, .ok d =>
    .ok { title := t, description := r.description.getD (""),
          due_date := d, is_resolved := checkboxToBool r.is_resolved }
  | a, b => .error (errList a ++ errList b)

/-- Modelled from the spec: the record store (§4.1) backing the
handlers; `models.py` and the ORM calls' semantics are absent from the
sources.  `nextId` is the auto-increment primary-key counter (ids are
never reused, §3), `clock` the logical time. -/
structure Store where
  nextId : Nat
  clock : Nat
  records : List Todo
deriving Repr, DecidableEq

/-- The empty store; primary keys start at 1. -/
def Store.empty : Store :=
  { nextId := 1, clock := 0, records := [] }

/-- Modelled from the spec: `get(id)` (§4.1) — the record with that id,
or `none` (`NotFound`) when absent. -/
def Store.get (s : Store) (pk : Nat) : Option Todo :=
  s.records.find? (fun t => t.id == pk)

/-- Modelled from the spec: `create(fields)` (§4.1) — inserts a new
record with system-generated id and timestamps; `description` defaults
to the empty string and `is_resolved` to false when omitted. -/
def Store.create (s : Store) (f : Fields) : Todo × Store :=
  let t : Todo :=
    { id := s.nextId, title := f.title.getD (""),
      description := f.description.getD (""),
      due_date := (f.due_date.getD none),
      is_resolved := f.is_resolved.getD false,
      created_at := s.clock, updated_at := s.clock }
  (t, { nextId := s.nextId + 1, clock := s.clock + 1, records := s.records ++ [t] })

/-- Modelled from the spec: a model `save()` on an existing instance —
writes the instance back over the stored row with the same id and
refreshes `updated_at` (`auto_now`), advancing the clock. -/
def Store.save (s : Store) (t : Todo) : Todo × Store :=
  let t' : Todo := { t with updated_at := s.clock }
  let rs := s.records.map (fun x => if x.id == t.id then t' else x)
  (t', { s with records := rs, clock := s.clock + 1 })

/-- Overwrite a record with the supplied fields, leaving omitted fields
(and `id`, `created_at`) unchanged. -/
def applyFields (t : Todo) (f : Fields) : Todo :=
  { t with
    title := f.title.getD t.title,
    description := f.description.getD t.description,
    due_date := f.due_date.getD t.due_date,
    is_resolved := f.is_resolved.getD t.is_resolved }

/-- Modelled from the spec: `update(id, fields)` (§4.1) — overwrites
only the supplied fields, recomputes `updated_at`; fails with `none`
(`NotFound`) if the id is absent. -/
def Store.update (s : Store) (pk : Nat) (f : Fields) : Option (Todo × Store) :=
  match s.get pk with
  | none => none
  | some t => some (s.save (applyFields t f))

/-- Modelled from the spec: `delete(id)` (§4.1) — permanently removes
the record; fails with `none` (`NotFound`) if absent. -/
def Store.delete (s : Store) (pk : Nat) : Option Store :=
  match s.get pk with
  | none => none
  | some _ => some { s with records := s.records.filter (fun t => t.id != pk) }

/-- `toggle_resolved(id)` (§4.1), exactly the read-modify-write of
`views.py:todo_toggle_resolved` lines 47-49: fetch the record, negate
`is_resolved` in memory, then save the instance back. -/
def Store.toggle_resolved (s : Store) (pk : Nat) : Option (Todo × Store) :=
  match s.get pk with
  | none => none
  | some t => some (s.save { t with is_resolved := !t.is_resolved })

/-- The listing order (§3): descending `created_at`, ties broken by
descending `id`.  `listBefore a b` says `a` may appear before `b`. -/
def listBefore (a b : Todo) : Prop :=
  b.created_at < a.created_at ∨ (b.created_at = a.created_at ∧ b.id ≤ a.id)

instance : DecidableRel listBefore := fun a b => by
  unfold listBefore; infer_instance

instance : IsTotal Todo listBefore :=
  ⟨fun a b => by unfold listBefore; omega⟩

instance : IsTrans Todo listBefore :=
  ⟨fun a b c hab hbc => by unfold listBefore at *; omega⟩

/-- Modelled from the spec: `list_all()` (§4.1) — all records,
newest-first by `created_at`, ties by descending id (the model's
default ordering, `models.py` absent from the sources). -/
def Store.list_all (s : Store) : List Todo :=
  s.records.insertionSort listBefore

/-- Store well-formedness: every record's id was allocated below the
counter, `created_at ≤ updated_at`, and every stored timestamp is in
the past of the clock. -/
def Store.WF (s : Store) : Prop :=
  ∀ t ∈ s.records, t.id < s.nextId ∧ t.created_at ≤ t.updated_at ∧ t.updated_at < s.clock

instance (s : Store) : Decidable s.WF := by
  unfold Store.WF; infer_instance

deriving instance DecidableEq for Except

/-- The HTTP method a handler branches on (`request.method`). -/
inductive Method where
  | GET
  | POST
deriving Repr, DecidableEq

/-- A form as handed to a template: the bound raw data (if any), the
per-field errors, and the instance an edit form was built from
(`TodoForm(request.POST, instance=todo)`). -/
structure FormState where
  data : Option RawFields
  errors : List (String × String)
  inst : Option Todo
deriving Repr, DecidableEq

/-- The context mapping passed to `render`. -/
inductive Context where
  | listCtx (todos : List Todo)
  | formCtx (form : FormState) (action : String)
  | confirmCtx (todo : Todo)
deriving Repr, DecidableEq

/-- A handler's response directive: render a template with a context
(HTTP 200), redirect (HTTP 302), or a 404 (`get_object_or_404`). -/
inductive Response where
  | Rendered (template : String) (context : Context)
  | Redirected (target : String)
  | NotFoundResponse
deriving Repr, DecidableEq

/-- The HTTP status of a response directive. -/
def Response.status : Response → Nat
  | .Rendered _ _ => 200
  | .Redirected _ => 302
  | .NotFoundResponse => 404

/-- Template name `todos/todo_list.html`. -/
def todoListTemplate : String := "todos/todo_list.html"

/-- Template name `todos/todo_form.html`. -/
def todoFormTemplate : String := "todos/todo_form.html"

/-- Template name `todos/todo_confirm_delete.html`. -/
def todoConfirmDeleteTemplate : String := "todos/todo_confirm_delete.html"

/-- Route name `todo_list`, the redirect target of every successful
mutation. -/
def todoListRoute : String := "todo_list"

/-- `views.py:todo_list` — render all records. -/
def todo_list (s : Store) : Response × Store :=
  (.Rendered todoListTemplate (.listCtx s.list_all), s)

/-- `views.py:todo_create` — on POST validate and create, redirecting to
the list on success; otherwise (GET, or invalid POST) render the form
with action label `Create`. -/
def todo_create (s : Store) (m : Method) (post : RawFields) : Response × Store :=
  match m with
  | .POST =>
    match clean post with
    | .ok c =>
      let s' := (s.create c.toFields).2
      (.Redirected todoListRoute, s')
    | .error es =>
      (.Rendered todoFormTemplate (.formCtx ⟨some post, es, none⟩ ("Create")), s)
  | .GET =>
    (.Rendered todoFormTemplate (.formCtx ⟨none, [], none⟩ ("Create")), s)

/-- `views.py:todo_edit` — 404 when the id does not resolve; on POST
validate and save over the fetched instance, redirecting on success; on
invalid POST or GET render the form with action label `Edit`. -/
def todo_edit (s : Store) (m : Method) (pk : Nat) (post : RawFields) : Response × Store :=
  match s.get pk with
  | none => (.NotFoundResponse, s)
  | some todo =>
    match m with
    | .POST =>
      match clean post with
      | .ok c =>
        match s.update pk c.toFields with
        | some (_, s') => (.Redirected todoListRoute, s')
        | none => (.NotFoundResponse, s)
      | .error es =>
        (.Rendered todoFormTemplate (.formCtx ⟨some post, es, some todo⟩ ("Edit")), s)
    | .GET =>
      (.Rendered todoFormTemplate (.formCtx ⟨none, [], some todo⟩ ("Edit")), s)

/-- `views.py:todo_delete` — 404 when the id does not resolve; POST
deletes and redirects; GET renders the confirmation view. -/
def todo_delete (s : Store) (m : Method) (pk : Nat) : Response × Store :=
  match s.get pk with
  | none => (.NotFoundResponse, s)
  | some todo =>
    match m with
    | .POST =>
      match s.delete pk with
      | some s' => (.Redirected todoListRoute, s')
      | none => (.NotFoundResponse, s)
    | .GET =>
      (.Rendered todoConfirmDeleteTemplate (.confirmCtx todo), s)

/-- `views.py:todo_toggle_resolved` — 404 when the id does not resolve;
otherwise flip the flag, save, and redirect (the method is not
inspected). -/
def todo_toggle_resolved (s : Store) (pk : Nat) : Response × Store :=
  match s.toggle_resolved pk with
  | none => (.NotFoundResponse, s)
  | some (_, s') => (.Redirected todoListRoute, s')

/-- One store operation, for reasoning about arbitrary operation
sequences. -/
inductive Op where
  | createOp (f : Fields)
  | updateOp (pk : Nat) (f : Fields)
  | deleteOp (pk : Nat)
  | toggleOp (pk : Nat)
deriving Repr, DecidableEq

/-- Apply one store operation; a failed (`NotFound`) operation leaves
the store unchanged. -/
def applyOp (s : Store) : Op → Store
  | .createOp f => (s.create f).2
  | .updateOp pk f =>
    match s.update pk f with
    | some (_, s') => s'
    | none => s
  | .deleteOp pk => (s.delete pk).getD s
  | .toggleOp pk =>
    match s.toggle_resolved pk with
    | some (_, s') => s'
    | none => s

/-- Run a sequence of store operations. -/
def runOps (s : Store) (ops : List Op) : Store :=
  ops.foldl applyOp s

/-! ### Helper lemmas -/

/-- A successful `get` returns a stored record. -/
theorem get_mem (s : Store) (pk : Nat) (t : Todo) (h : s.get pk = some t) :
    t ∈ s.records :=
  List.mem_of_find?_eq_some h

/-- A successful `get` returns a record carrying the requested id. -/
theorem get_id (s : Store) (pk : Nat) (t : Todo) (h : s.get pk = some t) :
    t.id = pk := by
  have hp := List.find?_some h
  simpa using hp

/-- Replacing the record that `find?` locates makes `find?` return the
replacement. -/
theorem find?_map_replace (l : List Todo) (pk : Nat) (t' u : Todo)
    (h : l.find? (fun x => x.id == pk) = some u) (hid : t'.id = pk) :
    (l.map (fun x => if x.id == pk then t' else x)).find? (fun x => x.id == pk) = some t' := by
  induction l with
  | nil => simp [List.find?] at h
  | cons x xs ih =>
    simp only [List.map_cons]
    by_cases hx : x.id = pk
    · have hrepl : (if (x.id == pk) = true then t' else x) = t' := by simp [hx]
      rw [hrepl]
      exact List.find?_cons_of_pos _ (by simp [hid])
    · have hrepl : (if (x.id == pk) = true then t' else x) = x := by simp [hx]
      rw [hrepl]
      rw [List.find?_cons_of_neg _ (by simp [hx])] at h ⊢
      exact ih h

/-- After a save of an instance whose id resolves, `get` returns the
saved instance, with `updated_at` refreshed to the save-time clock. -/
theorem get_save (s : Store) (t u : Todo) (h : s.get t.id = some u) :
    (s.save t).2.get t.id = some { t with updated_at := s.clock } := by
  simp only [Store.save, Store.get] at h ⊢
  exact find?_map_replace _ _ _ _ h rfl

/-- The empty store is well-formed. -/
theorem WF_empty : Store.empty.WF := by decide

/-- `create` preserves well-formedness. -/
theorem WF_create (s : Store) (f : Fields) (h : s.WF) : (s.create f).2.WF := by
  intro t ht
  simp only [Store.create, List.mem_append, List.mem_singleton] at ht
  simp only [Store.create]
  rcases ht with ht | rfl
  · obtain ⟨h1, h2, h3⟩ := h t ht
    exact ⟨by omega, h2, by omega⟩
  · exact ⟨Nat.lt_succ_self _, le_refl _, Nat.lt_succ_self _⟩

/-- Saving an instance whose id is below the counter and whose creation
time does not exceed the clock preserves well-formedness. -/
theorem WF_save (s : Store) (t : Todo) (h : s.WF) (h1 : t.id < s.nextId)
    (h2 : t.created_at ≤ s.clock) : (s.save t).2.WF := by
  intro u hu
  simp only [Store.save, List.mem_map] at hu
  simp only [Store.save]
  obtain ⟨x, hx, hxu⟩ := hu
  subst hxu
  by_cases hc : x.id = t.id
  · have hcb : (x.id == t.id) = true := by simp [hc]
    simp only [hcb, if_true]
    exact ⟨h1, h2, Nat.lt_succ_self _⟩
  · have hcb : (x.id == t.id) = false := by simp [hc]
    simp only [hcb, Bool.false_eq_true, if_false]
    obtain ⟨g1, g2, g3⟩ := h x hx
    exact ⟨g1, g2, by omega⟩

/-- A successful `update` preserves well-formedness. -/
theorem WF_update_some (s s' : Store) (pk : Nat) (f : Fields) (t' : Todo)
    (h : s.WF) (hu : s.update pk f = some (t', s')) : s'.WF := by
  rw [Store.update] at hu
  cases hg : s.get pk with
  | none => rw [hg] at hu; exact absurd hu (by simp)
  | some t =>
    rw [hg] at hu
    have hmem := get_mem s pk t hg
    obtain ⟨b1, b2, b3⟩ := h t hmem
    have hpair := Option.some.inj hu
    have hs' : s' = (s.save (applyFields t f)).2 := by rw [hpair]
    rw [hs']
    refine WF_save s (applyFields t f) h ?_ ?_
    · simpa [applyFields] using b1
    · simp only [applyFields]
      omega

/-- A successful `toggle_resolved` preserves well-formedness. -/
theorem WF_toggle_some (s s' : Store) (pk : Nat) (t' : Todo)
    (h : s.WF) (hu : s.toggle_resolved pk = some (t', s')) : s'.WF := by
  rw [Store.toggle_resolved] at hu
  cases hg : s.get pk with
  | none => rw [hg] at hu; exact absurd hu (by simp)
  | some t =>
    rw [hg] at hu
    have hmem := get_mem s pk t hg
    obtain ⟨b1, b2, b3⟩ := h t hmem
    have hpair := Option.some.inj hu
    have hs' : s' = (s.save { t with is_resolved := !t.is_resolved }).2 := by rw [hpair]
    rw [hs']
    refine WF_save s { t with is_resolved := !t.is_resolved } h (by simpa using b1) ?_
    simp only [Todo.mk.injEq]
    omega

/-- A successful `delete` preserves well-formedness. -/
theorem WF_delete_some (s s' : Store) (pk : Nat)
    (h : s.WF) (hu : s.delete pk = some s') : s'.WF := by
  rw [Store.delete] at hu
  cases hg : s.get pk with
  | none => rw [hg] at hu; exact absurd hu (by simp)
  | some t =>
    rw [hg] at hu
    have hs' : s' = { s with records := s.records.filter (fun t => t.id != pk) } :=
      (Option.some.inj hu).symm
    rw [hs']
    intro u hu'
    exact h u (List.mem_of_mem_filter hu')

/-- Every single store operation preserves well-formedness. -/
theorem WF_applyOp (s : Store) (op : Op) (h : s.WF) : (applyOp s op).WF := by
  cases op with
  | createOp f => exact WF_create s f h
  | updateOp pk f =>
    cases hu : s.update pk f with
    | none => simpa [applyOp, hu] using h
    | some p =>
      obtain ⟨t', s'⟩ := p
      simpa [applyOp, hu] using WF_update_some s s' pk f t' h hu
  | deleteOp pk =>
    cases hu : s.delete pk with
    | none => simpa [applyOp, hu] using h
    | some s' => simpa [applyOp, hu] using WF_delete_some s s' pk h hu
  | toggleOp pk =>
    cases hu : s.toggle_resolved pk with
    | none => simpa [applyOp, hu] using h
    | some p =>
      obtain ⟨t', s'⟩ := p
      simpa [applyOp, hu] using WF_toggle_some s s' pk t' h hu

/-- Every store reachable from the empty store is well-formed. -/
theorem WF_runOps (ops : List Op) : (runOps Store.empty ops).WF := by
  suffices h : ∀ s : Store, s.WF → (runOps s ops).WF from h _ WF_empty
  induction ops with
  | nil => intro s hs; exact hs
  | cons op ops ih =>
    intro s hs
    exact ih _ (WF_applyOp s op hs)

/-- A successful validation decodes `is_resolved` from the checkbox. -/
theorem clean_ok_isResolved (r : RawFields) (c : CleanedFields)
    (h : clean r = .ok c) : c.is_resolved = checkboxToBool r.is_resolved := by
  rw [clean] at h
  cases h1 : cleanTitle r with
  | error e => rw [h1] at h; cases h2 : cleanDueDate r <;> rw [h2] at h <;> simp at h
  | ok t =>
    rw [h1] at h
    cases h2 : cleanDueDate r with
    | error e => rw [h2] at h; simp at h
    | ok d =>
      rw [h2] at h
      simp at h
      rw [h.symm]

/-! ### Claims -/

/-- C1: for every id that does not identify an existing record, the
store operations `update`, `delete` and `toggle_resolved` fail with
`NotFound` (`none`), and the edit, delete and toggle handlers answer
with a 404 response while leaving the store exactly as it was. -/
theorem notFound_is_404_and_pure (s : Store) (pk : Nat) (m : Method) (post : RawFields)
    (f : Fields) (h : s.get pk = none) :
    s.update pk f = none ∧ s.delete pk = none ∧ s.toggle_resolved pk = none ∧
    todo_edit s m pk post = (.NotFoundResponse, s) ∧
    todo_delete s m pk = (.NotFoundResponse, s) ∧
    todo_toggle_resolved s pk = (.NotFoundResponse, s) ∧
    (todo_edit s m pk post).1.status = 404 ∧
    (todo_delete s m pk).1.status = 404 ∧
    (todo_toggle_resolved s pk).1.status = 404 := by
  refine ⟨?_, ?_, ?_, ?_, ?_, ?_, ?_, ?_, ?_⟩ <;>
    simp [Store.update, Store.delete, Store.toggle_resolved, todo_edit, todo_delete,
      todo_toggle_resolved, h, Response.status]

/-- Witness for C1 at the concrete missing id 9999 of the empty store. -/
theorem notFound_is_404_and_pure_witness :
    Store.empty.get 9999 = none ∧
    todo_edit Store.empty Method.GET 9999 {} = (.NotFoundResponse, Store.empty) :=
  ⟨by decide,
    (notFound_is_404_and_pure Store.empty 9999 Method.GET {} {} (by decide)).2.2.2.1⟩

/-- C5: a create submission that fails validation is answered by
re-rendering the form template on the same page with the per-field
errors attached, with HTTP status 200 and no redirect. -/
theorem create_invalid_rerenders (s : Store) (post : RawFields)
    (es : List (String × String)) (h : clean post = .error es) :
    todo_create s .POST post =
      (.Rendered todoFormTemplate (.formCtx ⟨some post, es, none⟩ ("Create")), s) ∧
    (todo_create s .POST post).1.status = 200 := by
  constructor
  · simp [todo_create, h]
  · simp [todo_create, h, Response.status]

/-- Witness for C5 at the concrete submission of the test
`test_todo_create_view_post_invalid` (description but no title). -/
theorem create_invalid_rerenders_witness :
    clean { description := some ("Missing title") } = .error [("title", "required")] ∧
    (todo_create Store.empty .POST { description := some ("Missing title") }).1.status = 200 :=
  ⟨by decide,
    (create_invalid_rerenders Store.empty { description := some ("Missing title") }
      [("title", "required")] (by decide)).2⟩

/-- C10: a create or edit submission that fails validation leaves the
store (hence every record, timestamps included) exactly unchanged. -/
theorem invalid_submission_frame (s : Store) (pk : Nat) (post : RawFields)
    (es : List (String × String)) (h : clean post = .error es) :
    (todo_create s .POST post).2 = s ∧ (todo_edit s .POST pk post).2 = s := by
  constructor
  · simp [todo_create, h]
  · cases hg : s.get pk with
    | none => simp [todo_edit, hg]
    | some t => simp [todo_edit, hg, h]

/-- Witness for C10: an invalid submission against a store holding one
record changes nothing. -/
theorem invalid_submission_frame_witness :
    clean { description := some ("No title") } = .error [("title", "required")] ∧
    (todo_edit (Store.empty.create { title := some ("A") }).2 .POST 1
      { description := some ("No title") }).2 =
      (Store.empty.create { title := some ("A") }).2 :=
  ⟨by decide,
    (invalid_submission_frame (Store.empty.create { title := some ("A") }).2 1
      { description := some ("No title") } [("title", "required")] (by decide)).2⟩

/-- C6: `list_all` returns exactly the stored records (a permutation),
ordered so that each record precedes only records of lower creation
recency, ties broken by descending id; and the three-record scenario
First, Second, Third lists as Third, Second, First. -/
theorem list_all_ordered (s : Store) :
    (s.list_all).Sorted listBefore ∧
    List.Perm s.list_all s.records ∧
    (runOps Store.empty [Op.createOp { title := some ("First") },
        Op.createOp { title := some ("Second") },
        Op.createOp { title := some ("Third") }]).list_all.map Todo.title =
      ["Third", "Second", "First"] :=
  ⟨List.sorted_insertionSort listBefore s.records,
   List.perm_insertionSort listBefore s.records,
   by decide⟩

/-- The store of the C9 lost-update scenario: one unresolved record. -/
def raceStore : Store := (Store.empty.create { title := some ("Task") }).2

/-- C9's interleaving fetch A, fetch B, save A, save B of
`views.py:todo_toggle_resolved` (lines 47-49): both callers run
`get_object_or_404` before either has saved, so both negate the same
snapshot and the second save overwrites the first. -/
def raceResult : Store :=
  match raceStore.get 1 with
  | none => raceStore
  | some t =>
    let s1 := (raceStore.save { t with is_resolved := !t.is_resolved }).2
    (s1.save { t with is_resolved := !t.is_resolved }).2

/-- The same two toggles run serially (either order: the operation is
symmetric in the caller). -/
def serialResult : Store :=
  match raceStore.toggle_resolved 1 with
  | none => raceStore
  | some (_, s1) =>
    match s1.toggle_resolved 1 with
    | none => s1
    | some (_, s2) => s2

/-- C9: the handler's read-modify-write is not atomic — interleaving
two concurrent toggles of the same record loses one update (the flag
ends `true`), whereas every serial order of the two flips returns it to
`false`. -/
theorem toggle_lost_update :
    (raceResult.get 1).map Todo.is_resolved = some true ∧
    (serialResult.get 1).map Todo.is_resolved = some false := by
  decide

/-- C2: toggling an existing record twice in succession returns
`is_resolved` to its original value, and each of the two calls produces
a strictly larger `updated_at` than the value before that call. -/
theorem toggle_twice_roundtrip (s : Store) (pk : Nat) (t : Todo)
    (hWF : s.WF) (h : s.get pk = some t) :
    ∃ t1 s1 t2 s2,
      s.toggle_resolved pk = some (t1, s1) ∧
      s1.toggle_resolved pk = some (t2, s2) ∧
      t1.is_resolved = !t.is_resolved ∧
      t2.is_resolved = t.is_resolved ∧
      t.updated_at < t1.updated_at ∧
      t1.updated_at < t2.updated_at := by
  obtain ⟨-, -, hclk⟩ := hWF t (get_mem s pk t h)
  have hid : t.id = pk := get_id s pk t h
  subst hid
  have hm : s.get ({ t with is_resolved := !t.is_resolved } : Todo).id = some t := h
  have hg1 : (s.save { t with is_resolved := !t.is_resolved }).2.get t.id =
      some { t with is_resolved := !t.is_resolved, updated_at := s.clock } :=
    get_save s { t with is_resolved := !t.is_resolved } t hm
  refine ⟨(s.save { t with is_resolved := !t.is_resolved }).1,
         (s.save { t with is_resolved := !t.is_resolved }).2,
         ((s.save { t with is_resolved := !t.is_resolved }).2.save
           { t with is_resolved := !(!t.is_resolved), updated_at := s.clock }).1,
         ((s.save { t with is_resolved := !t.is_resolved }).2.save
           { t with is_resolved := !(!t.is_resolved), updated_at := s.clock }).2,
         ?_, ?_, ?_, ?_, ?_, ?_⟩
  · rw [Store.toggle_resolved, h]
  · rw [Store.toggle_resolved, hg1]
  · rfl
  · simp [Store.save]
  · exact hclk
  · exact Nat.lt_succ_self _

/-- The store of the C2 witness: one fresh unresolved record. -/
def toggleStoreW : Store := (Store.empty.create { title := some ("Test") }).2

/-- The record held by `toggleStoreW`. -/
def toggleTodoW : Todo :=
  { id := 1, title := "Test", description := "", due_date := none, is_resolved := false,
    created_at := 0, updated_at := 0 }

/-- Witness for C2 on a concrete one-record store. -/
theorem toggle_twice_roundtrip_witness :
    toggleStoreW.WF ∧ toggleStoreW.get 1 = some toggleTodoW ∧
    (∃ t1 s1 t2 s2,
      toggleStoreW.toggle_resolved 1 = some (t1, s1) ∧
      s1.toggle_resolved 1 = some (t2, s2) ∧
      t1.is_resolved = !toggleTodoW.is_resolved ∧
      t2.is_resolved = toggleTodoW.is_resolved ∧
      toggleTodoW.updated_at < t1.updated_at ∧
      t1.updated_at < t2.updated_at) :=
  ⟨by decide, by decide,
    toggle_twice_roundtrip toggleStoreW 1 toggleTodoW (by decide) (by decide)⟩

/-- C3: `create` on a well-formed store with a field map carrying a
non-empty title, followed by `get` of the new record's id, returns the
new record; its supplied fields equal the input, its title is the
supplied non-empty title, and `description`/`is_resolved` default to
`""`/`false` when omitted. -/
theorem create_get_roundtrip (s : Store) (f : Fields) (τ : String)
    (hWF : s.WF) (ht : f.title = some τ) (hne : τ ≠ "") :
    (s.create f).2.get (s.create f).1.id = some (s.create f).1 ∧
    (s.create f).1.title = τ ∧ (s.create f).1.title ≠ "" ∧
    (∀ d, f.description = some d → (s.create f).1.description = d) ∧
    (∀ dd, f.due_date = some dd → (s.create f).1.due_date = dd) ∧
    (∀ b, f.is_resolved = some b → (s.create f).1.is_resolved = b) ∧
    (f.description = none → (s.create f).1.description = "") ∧
    (f.is_resolved = none → (s.create f).1.is_resolved = false) := by
  have hnone : s.records.find? (fun x => x.id == s.nextId) = none := by
    rw [List.find?_eq_none]
    intro x hx
    have h1 := (hWF x hx).1
    simp only [beq_iff_eq]
    omega
  refine ⟨?_, ?_, ?_, ?_, ?_, ?_, ?_, ?_⟩
  · simp only [Store.create, Store.get, List.find?_append, hnone, Option.none_or]
    exact List.find?_cons_of_pos _ (by simp)
  · simp [Store.create, ht]
  · simpa [Store.create, ht] using hne
  · intro d hd
    simp [Store.create, hd]
  · intro dd hdd
    simp [Store.create, hdd]
  · intro b hb
    simp [Store.create, hb]
  · intro hd
    simp [Store.create, hd]
  · intro hb
    simp [Store.create, hb]

/-- Witness for C3: creating with only a title on the empty store. -/
theorem create_get_roundtrip_witness :
    Store.empty.WF ∧
    (({ title := some ("Minimal TODO") } : Fields).title = some ("Minimal TODO")) ∧
    ("Minimal TODO" : String) ≠ "" ∧
    ((Store.empty.create { title := some ("Minimal TODO") }).2.get
        (Store.empty.create { title := some ("Minimal TODO") }).1.id =
      some (Store.empty.create { title := some ("Minimal TODO") }).1) :=
  ⟨by decide, rfl, by decide,
    (create_get_roundtrip Store.empty { title := some ("Minimal TODO") } ("Minimal TODO")
      (by decide) rfl (by decide)).1⟩

/-- C4 counterexample: the string `" "` is non-empty, yet a field map
with only `title` set to it is rejected by the validator (`" "` trims
to empty), so the claim's acceptance clause fails as stated. -/
theorem blank_title_counterexample :
    (" " : String) ≠ "" ∧
    clean { title := some (" ") } = .error [("title", "required")] := by
  constructor <;> decide

/-- C4 (amended): the validator rejects every field map whose title is
missing or empty after trimming, reporting error key `required` on the
title field, and accepts every field map in which only title is set to
a string that is non-empty after trimming. -/
theorem title_required_validation (r : RawFields) (τ : String)
    (hbad : r.title = none ∨ strTrim (r.title.getD ("")) = "")
    (hok : strTrim τ ≠ "") :
    (∃ es, clean r = .error es ∧ ("title", "required") ∈ es) ∧
    clean { title := some τ } =
      .ok { title := strTrim τ, description := "", due_date := none, is_resolved := false } := by
  have htitle : cleanTitle r = .error ("title", "required") := by
    rcases hbad with hb | hb
    · simp [cleanTitle, hb, strTrim, trimChars]
    · simp [cleanTitle, hb]
  constructor
  · cases hd : cleanDueDate r with
    | ok d =>
      refine ⟨[("title", "required")], ?_, by simp⟩
      rw [clean, htitle, hd]
      rfl
    | error e =>
      refine ⟨[("title", "required"), e], ?_, by simp⟩
      rw [clean, htitle, hd]
      rfl
  · have h1 : cleanTitle { title := some τ } = .ok (strTrim τ) := by
      simp [cleanTitle, hok]
    have h2 : cleanDueDate { title := some τ } = .ok none := rfl
    rw [clean, h1, h2]
    rfl

/-- Witness for C4's amended statement at the test's concrete inputs:
a map lacking a title is rejected with the `required` key. -/
theorem title_required_validation_witness :
    (({ description := some ("No title") } : RawFields).title = none ∨
      strTrim (({ description := some ("No title") } : RawFields).title.getD ("")) = "") ∧
    strTrim ("Minimal Form TODO") ≠ "" ∧
    (∃ es, clean { description := some ("No title") } = .error es ∧
      ("title", "required") ∈ es) :=
  ⟨Or.inl rfl, by decide,
    (title_required_validation { description := some ("No title") } ("Minimal Form TODO")
      (Or.inl rfl) (by decide)).1⟩

/-- C7: in every store reachable by a sequence of operations from the
empty store, `created_at ≤ updated_at` holds for every record; a
successful `update` or `toggle_resolved` leaves the touched record's
`created_at` unchanged and strictly increases its `updated_at`. -/
theorem created_updated_discipline (ops : List Op) :
    (∀ t ∈ (runOps Store.empty ops).records, t.created_at ≤ t.updated_at) ∧
    (∀ pk f t t' s', (runOps Store.empty ops).get pk = some t →
        (runOps Store.empty ops).update pk f = some (t', s') →
        t'.created_at = t.created_at ∧ t.updated_at < t'.updated_at) ∧
    (∀ pk t t' s', (runOps Store.empty ops).get pk = some t →
        (runOps Store.empty ops).toggle_resolved pk = some (t', s') →
        t'.created_at = t.created_at ∧ t.updated_at < t'.updated_at) := by
  have hWF := WF_runOps ops
  refine ⟨fun t ht => (hWF t ht).2.1, ?_, ?_⟩
  · intro pk f t t' s' hg hu
    rw [Store.update, hg] at hu
    have hpair := Option.some.inj hu
    obtain ⟨-, -, hclk⟩ := hWF t (get_mem _ _ _ hg)
    have hfst : ((runOps Store.empty ops).save (applyFields t f)).1 = t' := by
      simpa using congrArg Prod.fst hpair
    subst hfst
    exact ⟨rfl, hclk⟩
  · intro pk t t' s' hg hu
    rw [Store.toggle_resolved, hg] at hu
    have hpair := Option.some.inj hu
    obtain ⟨-, -, hclk⟩ := hWF t (get_mem _ _ _ hg)
    have hfst : ((runOps Store.empty ops).save { t with is_resolved := !t.is_resolved }).1 = t' := by
      simpa using congrArg Prod.fst hpair
    subst hfst
    exact ⟨rfl, hclk⟩

/-- The single-create operation sequence of the C7 witness. -/
def opsW : List Op := [Op.createOp { title := some ("A") }]

/-- The record produced by `opsW`. -/
def t0W : Todo :=
  { id := 1, title := "A", description := "", due_date := none, is_resolved := false,
    created_at := 0, updated_at := 0 }

/-- The record after toggling `t0W`. -/
def t1W : Todo :=
  { id := 1, title := "A", description := "", due_date := none, is_resolved := true,
    created_at := 0, updated_at := 1 }

/-- The store after toggling the record of `opsW`. -/
def s1W : Store := { nextId := 2, clock := 2, records := [t1W] }

/-- Witness for C7 on the concrete one-create history followed by a
toggle. -/
theorem created_updated_discipline_witness :
    (runOps Store.empty opsW).get 1 = some t0W ∧
    (runOps Store.empty opsW).toggle_resolved 1 = some (t1W, s1W) ∧
    t0W ∈ (runOps Store.empty opsW).records ∧
    t0W.created_at ≤ t0W.updated_at ∧
    (t1W.created_at = t0W.created_at ∧ t0W.updated_at < t1W.updated_at) :=
  ⟨by decide, by decide, by decide,
    (created_updated_discipline opsW).1 t0W (by decide),
    (created_updated_discipline opsW).2.2 1 t0W t1W s1W (by decide) (by decide)⟩

/-- C8: an edit submission on an existing record whose raw field map
carries no `is_resolved` value validates to `is_resolved = false` and,
once saved, stores `false` — the record's previous value is not carried
over — and the handler redirects to the list. -/
theorem edit_absent_checkbox_clears (s : Store) (pk : Nat) (t : Todo) (post : RawFields)
    (c : CleanedFields) (hget : s.get pk = some t) (hclean : clean post = .ok c)
    (habs : post.is_resolved = none) :
    c.is_resolved = false ∧
    ((todo_edit s .POST pk post).2.get pk).map Todo.is_resolved = some false ∧
    (todo_edit s .POST pk post).1 = .Redirected todoListRoute := by
  have hres : c.is_resolved = false := by
    rw [clean_ok_isResolved post c hclean, habs]
    rfl
  have hid : t.id = pk := get_id s pk t hget
  subst hid
  have hm : s.get (applyFields t c.toFields).id = some t := hget
  have hupd : s.update t.id c.toFields = some (s.save (applyFields t c.toFields)) := by
    rw [Store.update, hget]
  have hedit : todo_edit s .POST t.id post =
      (.Redirected todoListRoute, (s.save (applyFields t c.toFields)).2) := by
    simp only [todo_edit, hget, hclean, hupd]
  have hg2 : (s.save (applyFields t c.toFields)).2.get t.id =
      some { applyFields t c.toFields with updated_at := s.clock } :=
    get_save s (applyFields t c.toFields) t hm
  refine ⟨hres, ?_, ?_⟩
  · rw [hedit, hg2]
    simp [applyFields, CleanedFields.toFields, hres]
  · rw [hedit]

/-- The store of the C8 witness: one resolved record. -/
def resolvedStoreW : Store :=
  (Store.empty.create { title := some ("T"), is_resolved := some true }).2

/-- The resolved record held by `resolvedStoreW`. -/
def resolvedTodoW : Todo :=
  { id := 1, title := "T", description := "", due_date := none, is_resolved := true,
    created_at := 0, updated_at := 0 }

/-- Witness for C8: editing the resolved record with a title-only
submission stores `is_resolved = false`. -/
theorem edit_absent_checkbox_clears_witness :
    resolvedStoreW.get 1 = some resolvedTodoW ∧
    clean { title := some ("Updated") } =
      .ok { title := "Updated", description := "", due_date := none, is_resolved := false } ∧
    (({ title := some ("Updated") } : RawFields).is_resolved = none) ∧
    ((todo_edit resolvedStoreW .POST 1 { title := some ("Updated") }).2.get 1).map
      Todo.is_resolved = some false :=
  ⟨by decide, by decide, rfl,
    (edit_absent_checkbox_clears resolvedStoreW 1 resolvedTodoW { title := some ("Updated") }
      { title := "Updated", description := "", due_date := none, is_resolved := false }
      (by decide) (by decide) rfl).2.1⟩

